import Mathlib

/-!
Verification of the FP16 mixed-precision training hooks
(`mmdet/core/fp16/hooks.py`).

The module under verification contains two training-loop hooks
(`Fp16PrepareHook`, `Fp16OptimizerHook`) and four helper functions
(`copy_in_params`, `set_grad`, `wrap_fp16_model`, `patch_norm_fp32`,
`patch_forward_module`).  We give a shallow embedding:

* tensors are modelled as a dtype tag plus a list of exact rational
  values (`MTensor`); half-precision rounding is an arbitrary function
  `r16 : Rat → Rat` that theorems quantify over;
* parameters carry `data`, an optional `grad` and a `requires_grad`
  flag, exactly the three attributes the Python code touches;
* external collaborators (autograd's `backward`, the distributed
  all-reduce, gradient clipping and the optimizer's `step`) are either
  modelled from their documented behaviour or passed in as opaque
  function arguments, since the code treats them as black boxes;
* Python-level mutation of the optimizer-config dict is modelled with
  an explicit store of dictionaries addressed by references, so that
  the aliasing behaviour of `dict.copy()` / `dict.pop()` is visible.
-/

namespace Fp16

/-- Floating point dtype tags: torch.half / torch.float. -/
inductive DType where
  | fp16
  | fp32
deriving DecidableEq, Repr

/-- Model of a torch tensor: a dtype tag and exact rational contents.
The flat list of values stands for the tensor's elements in order;
`vals.length` plays the role of the tensor's size. -/
structure MTensor where
  dtype : DType
  vals : List Rat
deriving DecidableEq, Repr

/-- Model of a torch parameter: the three attributes the hooks code
reads or writes (`.data`, `.grad`, `.requires_grad`). -/
structure Param where
  data : MTensor
  grad : Option MTensor
  requires_grad : Bool
deriving DecidableEq, Repr

/-- Model of torch `dest.copy_(src)`: writes the source values into the
destination, keeping the destination's dtype; writing into a
half-precision tensor rounds every value through `r16`.  (A size
mismatch raises in torch; the fallible variants below model that.) -/
def tensorCopy (r16 : Rat → Rat) (dest src : MTensor) : MTensor :=
  ⟨dest.dtype, if dest.dtype = DType.fp16 then src.vals.map r16 else src.vals⟩

/-- Model of torch `t.new(*t2.size())`: a freshly allocated tensor with
the dtype of `t` and the size of the argument; the uninitialised
contents are modelled as zeros (they are always overwritten before
being read in this module). -/
def tensorNew (t : MTensor) : MTensor :=
  ⟨t.dtype, t.vals.map (fun _ => 0)⟩

/-- Model of torch `t.clone()` on `.data`: an independent tensor with
the same dtype and values. -/
def cloneData (t : MTensor) : MTensor :=
  ⟨t.dtype, t.vals⟩

/-- The body of the `set_grad` loop for one aligned pair
(hooks.py lines 90–93): if the fp16 parameter has a gradient, make
sure the fp32 parameter has a gradient buffer (allocating one of the
fp32 parameter's size if absent) and copy the fp16 gradient values
into it; otherwise leave the fp32 parameter alone. -/
def setGradPair (r16 : Rat → Rat) (param_fp32 param_fp16 : Param) : Param :=
  match param_fp16.grad with
  | none => param_fp32
  | some g16 =>
      let g32 := match param_fp32.grad with
        | none => tensorNew param_fp32.data
        | some g => g
      { param_fp32 with grad := some (tensorCopy r16 g32 g16) }

/-- `set_grad(fp16_net, fp32_weight)` (hooks.py lines 88–93): iterate
`zip(fp32_weight, fp16_net.parameters())` and copy each present fp16
gradient into the aligned fp32 parameter.  The function returns the
updated fp32 list; `zip` truncates at the shorter list, so a surplus
tail of the fp32 list is returned unchanged. -/
def set_grad (r16 : Rat → Rat) : List Param → List Param → List Param
  | _, [] => []
  | [], p32s => p32s
  | p16 :: t16, p32 :: t32 => setGradPair r16 p32 p16 :: set_grad r16 t16 t32

/-- The body of the `copy_in_params` loop for one aligned pair
(hooks.py line 84): `net_param.data.copy_(fp32_weight_param.data)`. -/
def copyInPair (r16 : Rat → Rat) (net_param fp32_weight_param : Param) : Param :=
  { net_param with data := tensorCopy r16 net_param.data fp32_weight_param.data }

/-- `copy_in_params(fp16_net, fp32_weight)` (hooks.py lines 81–84):
iterate `zip(fp16_net.parameters(), fp32_weight)` and copy each fp32
master value back into the aligned fp16 model parameter.  Returns the
updated fp16 list; `zip` truncates at the shorter list. -/
def copy_in_params (r16 : Rat → Rat) : List Param → List Param → List Param
  | [], _ => []
  | p16s, [] => p16s
  | p16 :: t16, p32 :: t32 => copyInPair r16 p16 p32 :: copy_in_params r16 t16 t32

/-- Model of torch `zero_grad()` on one parameter: an existing gradient
is zeroed in place; an absent gradient stays absent. -/
def zeroGradParam (p : Param) : Param :=
  { p with grad := p.grad.map (fun g => ⟨g.dtype, g.vals.map (fun _ => 0)⟩) }

/-- Model of `model.zero_grad()` / `optimizer.zero_grad()` over a
parameter list. -/
def zeroGrads (ps : List Param) : List Param :=
  ps.map zeroGradParam

/-- Autograd accumulation into one parameter during backward: the new
gradient is (old gradient, or zeros) plus `c` times this parameter's
gradient of the unscaled loss.  The gradient tensor has the
parameter's dtype. -/
def accumGrad (c : Rat) (p : Param) (g : MTensor) : Param :=
  let base := match p.grad with
    | none => g.vals.map (fun _ => 0)
    | some h => h.vals
  { p with grad := some ⟨p.data.dtype, List.zipWith (fun b x => b + c * x) base g.vals⟩ }

/-- Modelled from the spec: `scaled_loss.backward()` where
`scaled_loss = loss * c`.  Autograd is an external collaborator
("backpropagates the scaled loss"); by linearity of differentiation it
accumulates `c` times the gradient of the unscaled loss into each
participating parameter, in exact arithmetic.  `gradOfLoss` gives, per
parameter, the gradient of the unscaled loss (`none` for a parameter
that does not take part in the computation graph). -/
def backwardScaled (c : Rat) : List (Option MTensor) → List Param → List Param
  | _, [] => []
  | [], ps => ps
  | none :: gs, p :: ps => p :: backwardScaled c gs ps
  | some g :: gs, p :: ps => accumGrad c p g :: backwardScaled c gs ps

/-- The body of the unscale loop for one parameter (hooks.py lines
72–73): `if p.grad is not None: p.grad.div_(self.loss_scale)`. -/
def unscaleParam (loss_scale : Rat) (p : Param) : Param :=
  match p.grad with
  | none => p
  | some g => { p with grad := some ⟨g.dtype, g.vals.map (fun v => v / loss_scale)⟩ }

/-- The unscale loop (hooks.py lines 71–73): divide every non-`none`
fp32 gradient by `loss_scale`, in place. -/
def unscaleGrads (loss_scale : Rat) (ps : List Param) : List Param :=
  ps.map (unscaleParam loss_scale)

/-- The node payload of a torch module: whether the module is a
batch-norm or group-norm instance (the `isinstance` test in
`patch_norm_fp32`), its own parameters, whether its `forward` has been
replaced by `patch_forward_module`, and the `fp16_enabled` attribute
(present only on some modules). -/
structure MData where
  isNorm : Bool
  params : List Param
  fwdPatched : Bool
  hasFp16Flag : Bool
  fp16_enabled : Bool
deriving DecidableEq, Repr

/-- Model of a torch `nn.Module`: a payload and a list of child
modules. -/
inductive NNModule where
  | node (d : MData) (children : List NNModule)

def NNModule.data : NNModule → MData
  | .node d _ => d

def NNModule.children : NNModule → List NNModule
  | .node _ cs => cs

mutual

/-- `module.parameters()`: the module's own parameters followed by the
children's, depth first. -/
def modelParameters : NNModule → List Param
  | .node d cs => d.params ++ modelParametersL cs

def modelParametersL : List NNModule → List Param
  | [] => []
  | m :: ms => modelParameters m ++ modelParametersL ms

end

mutual

/-- Number of modules in the tree (used as a termination measure). -/
def moduleCount : NNModule → Nat
  | .node _ cs => 1 + moduleCountL cs

def moduleCountL : List NNModule → Nat
  | [] => 0
  | m :: ms => 1 + moduleCount m + moduleCountL ms

end

/-- `float()` on one parameter: cast to full precision; the values are
preserved exactly (fp16 → fp32 widening is exact). -/
def paramFloat (p : Param) : Param :=
  { p with data := ⟨DType.fp32, p.data.vals⟩,
           grad := p.grad.map (fun g => ⟨DType.fp32, g.vals⟩) }

/-- `float()` on a module's own payload. -/
def dataFloat (d : MData) : MData :=
  { d with params := d.params.map paramFloat }

mutual

/-- Model of torch `module.float()`: casts the parameters of the module
and of all its descendants to full precision (torch `_apply` recurses
through the whole subtree). -/
def moduleFloat : NNModule → NNModule
  | .node d cs => .node (dataFloat d) (moduleFloatL cs)

def moduleFloatL : List NNModule → List NNModule
  | [] => []
  | m :: ms => moduleFloat m :: moduleFloatL ms

end

/-- `half()` on one parameter: cast to half precision, rounding every
value through `r16`. -/
def paramHalf (r16 : Rat → Rat) (p : Param) : Param :=
  { p with data := ⟨DType.fp16, p.data.vals.map r16⟩,
           grad := p.grad.map (fun g => ⟨DType.fp16, g.vals.map r16⟩) }

/-- `half()` on a module's own payload. -/
def dataHalf (r16 : Rat → Rat) (d : MData) : MData :=
  { d with params := d.params.map (paramHalf r16) }

mutual

/-- Model of torch `model.half()`: casts the parameters of the module
and of all its descendants to half precision. -/
def moduleHalf (r16 : Rat → Rat) : NNModule → NNModule
  | .node d cs => .node (dataHalf r16 d) (moduleHalfL r16 cs)

def moduleHalfL (r16 : Rat → Rat) : List NNModule → List NNModule
  | [] => []
  | m :: ms => moduleHalf r16 m :: moduleHalfL r16 ms

end

/-- `module.forward = patch_forward_module(module.forward, ...)`:
replaces the forward function of this module only. -/
def setFwdPatched : NNModule → NNModule
  | .node d cs => .node { d with fwdPatched := true } cs

mutual

theorem moduleCount_moduleFloat (m : NNModule) :
    moduleCount (moduleFloat m) = moduleCount m := by
  match m with
  | .node d cs => simp [moduleFloat, moduleCount, moduleCountL_moduleFloatL cs]

theorem moduleCountL_moduleFloatL (ms : List NNModule) :
    moduleCountL (moduleFloatL ms) = moduleCountL ms := by
  match ms with
  | [] => rfl
  | m :: ms =>
      simp [moduleFloatL, moduleCountL, moduleCount_moduleFloat m,
        moduleCountL_moduleFloatL ms]

end

mutual

/-- `patch_norm_fp32(module)` (hooks.py lines 106–113): if the module
is a batch-norm or group-norm instance, cast it (and, per torch
semantics of `float()`, its whole subtree) to full precision and
replace its forward function by the casting wrapper; then recurse into
the children of the (possibly updated) module. -/
def patch_norm_fp32 : NNModule → NNModule
  | .node d cs =>
      let m1 := if d.isNorm then setFwdPatched (moduleFloat (.node d cs))
                else .node d cs
      .node m1.data (patch_norm_fp32L m1.children)
termination_by m => moduleCount m
decreasing_by
  cases d.isNorm <;>
    simp [setFwdPatched, moduleFloat, NNModule.children, moduleCount,
      moduleCountL_moduleFloatL]

def patch_norm_fp32L : List NNModule → List NNModule
  | [] => []
  | c :: cs => patch_norm_fp32 c :: patch_norm_fp32L cs
termination_by ms => moduleCountL ms
decreasing_by
  · simp [moduleCountL]; omega
  · simp [moduleCountL]

end

mutual

/-- `for m in model.modules(): if hasattr(m, 'fp16_enabled'):
m.fp16_enabled = True` (hooks.py lines 100–102). -/
def setFp16Flags : NNModule → NNModule
  | .node d cs =>
      .node (if d.hasFp16Flag then { d with fp16_enabled := true } else d)
        (setFp16FlagsL cs)

def setFp16FlagsL : List NNModule → List NNModule
  | [] => []
  | m :: ms => setFp16Flags m :: setFp16FlagsL ms

end

/-- `wrap_fp16_model(model)` (hooks.py lines 96–102): convert the model
to fp16, patch the normalization layers back to fp32, then set the
`fp16_enabled` flags. -/
def wrap_fp16_model (r16 : Rat → Rat) (m : NNModule) : NNModule :=
  setFp16Flags (patch_norm_fp32 (moduleHalf r16 m))

/-! ### The optimizer-config dictionary

Python dictionaries are mutable and aliased, so we model them with an
explicit store: a list of dictionaries addressed by `Nat` references.
`dict.copy()` allocates a fresh dictionary at a fresh reference;
`dict.pop(k)` mutates the dictionary behind the given reference. -/

/-- A value in the optimizer config: the class name under `"type"`, or
a numeric hyperparameter such as `lr`. -/
inductive CfgVal where
  | str : String → CfgVal
  | num : Rat → CfgVal
deriving DecidableEq, Repr

/-- A Python dict, as an association list with distinct keys. -/
abbrev Dict := List (String × CfgVal)

/-- The heap of live dictionaries; a dict reference is an index. -/
abbrev Store := List Dict

def storeGet (st : Store) (r : Nat) : Dict :=
  st.getD r []

def dictLookup (d : Dict) (k : String) : Option CfgVal :=
  (d.find? (fun kv => kv.1 == k)).map (fun kv => kv.2)

/-- Removal of a key (the mutation performed by `dict.pop(k)`); on a
dict with distinct keys this removes exactly the entry for `k`. -/
def dictRemove (d : Dict) (k : String) : Dict :=
  d.filter (fun kv => kv.1 != k)

/-- `d.copy()`: allocate a shallow copy at a fresh reference. -/
def dictCopyOp (st : Store) (r : Nat) : Store × Nat :=
  (st ++ [storeGet st r], st.length)

/-- `d.pop(k)`: remove `k` from the dict behind `r` and return its
value. -/
def dictPopOp (st : Store) (r : Nat) (k : String) : Store × Option CfgVal :=
  (st.set r (dictRemove (storeGet st r) k), dictLookup (storeGet st r) k)

/-- The optimizer object built by `before_run`: the `torch.optim`
class name that was popped from the config, the parameter list it is
constructed over (`param_groups[0]['params']`), and the remaining
config entries passed as keyword arguments. -/
structure TOptimizer where
  otype : Option CfgVal
  params : List Param
  kwargs : Dict
deriving Repr

/-- `param.data.clone()` used as an optimizer parameter: an
independent tensor with the same values, no gradient, and
`requires_grad = False` until set. -/
def cloneParam (p : Param) : Param :=
  ⟨cloneData p.data, none, false⟩

/-- The loop `for param, net_param in zip(param_copy,
model.parameters()): param.requires_grad = net_param.requires_grad`
(hooks.py lines 26–27). -/
def copyReqGrad : List Param → List Param → List Param
  | [], _ => []
  | ps, [] => ps
  | p :: t, n :: tn => { p with requires_grad := n.requires_grad } :: copyReqGrad t tn

/-- `Fp16PrepareHook.before_run(runner)` (hooks.py lines 22–34): clone
all model parameters into an fp32 master copy, transfer the
`requires_grad` flags, convert the model via `wrap_fp16_model`, and
build a new optimizer over the clones, with the class name popped from
a shallow copy of the stored optimizer config.  The store `st` holds
the live dicts and `cfgRef` is the reference held in
`self.optimizer`. -/
def before_run (r16 : Rat → Rat) (st : Store) (cfgRef : Nat) (model : NNModule) :
    Store × TOptimizer × NNModule :=
  let param_copy := (modelParameters model).map cloneParam
  let param_copy2 := copyReqGrad param_copy (modelParameters model)
  let model2 := wrap_fp16_model r16 model
  let c1 := dictCopyOp st cfgRef
  let c2 := dictPopOp c1.1 c1.2 "type"
  (c2.1, ⟨c2.2, param_copy2, storeGet c2.1 c1.2⟩, model2)

/-! ### The per-iteration optimizer hook -/

/-- The constructor arguments of `Fp16OptimizerHook`. -/
structure HookCfg where
  grad_clip : Option Dict
  coalesce : Bool
  bucket_size_mb : Int
  loss_scale : Rat
  distributed : Bool

/-- The observable actions `after_train_iter` performs, in program
order. -/
inductive Ev where
  | zeroModelGrad
  | zeroOptGrad
  | scaleLoss
  | backward
  | setGrad
  | allreduce
  | unscale
  | clipGrads
  | optStep
  | copyIn
deriving DecidableEq, Repr

/-- The runner state that `after_train_iter` touches: the fp16 model
parameters, the fp32 master list held by the optimizer, the loss of
this iteration, and (a semantic input) the gradient of the unscaled
loss with respect to each model parameter. -/
structure TrainState where
  modelParams : List Param
  fp32_weight : List Param
  loss : Rat
  gradOfLoss : List (Option MTensor)

/-- `Fp16OptimizerHook.after_train_iter(runner)` (hooks.py lines
62–77), instrumented with an event trace.  The external collaborators
are passed in as functions: `arFn` is `allreduce_grads` (lives in
`mmdet.core.utils.dist_utils`), `clipFn` is the inherited
`OptimizerHook.clip_grads`, and `stepFn` is `optimizer.step()`. -/
def after_train_iter (cfg : HookCfg) (arFn clipFn stepFn : List Param → List Param)
    (r16 : Rat → Rat) (s : TrainState) : TrainState × List Ev :=
  let fp32_weight := s.fp32_weight
  let mp1 := zeroGrads s.modelParams
  let tr1 : List Ev := [Ev.zeroModelGrad]
  let fw1 := zeroGrads fp32_weight
  let tr2 := tr1 ++ [Ev.zeroOptGrad]
  let tr3 := tr2 ++ [Ev.scaleLoss]
  let mp2 := backwardScaled cfg.loss_scale s.gradOfLoss mp1
  let tr4 := tr3 ++ [Ev.backward]
  let fw2 := set_grad r16 mp2 fw1
  let tr5 := tr4 ++ [Ev.setGrad]
  let fw3 := if cfg.distributed then arFn fw2 else fw2
  let tr6 := tr5 ++ (if cfg.distributed then [Ev.allreduce] else [])
  let fw4 := unscaleGrads cfg.loss_scale fw3
  let tr7 := tr6 ++ [Ev.unscale]
  let fw5 := if cfg.grad_clip.isSome then clipFn fw4 else fw4
  let tr8 := tr7 ++ (if cfg.grad_clip.isSome then [Ev.clipGrads] else [])
  let fw6 := stepFn fw5
  let tr9 := tr8 ++ [Ev.optStep]
  let mp3 := copy_in_params r16 mp2 fw6
  let tr10 := tr9 ++ [Ev.copyIn]
  (⟨mp3, fw6, s.loss, s.gradOfLoss⟩, tr10)

/-! ### Fallible variants

The copy loops call framework primitives that can raise (dtype or
shape mismatches).  To reason about error propagation we repeat the
two loops in the `Except` monad, with the per-pair framework operation
abstract; the loops themselves contain no handler. -/

/-- `copy_in_params` with the per-pair framework call (`data.copy_`)
abstracted as a fallible operation. -/
def copy_in_paramsE (op : Param → Param → Except String Param) :
    List Param → List Param → Except String (List Param)
  | [], _ => .ok []
  | p16s, [] => .ok p16s
  | p16 :: t16, p32 :: t32 => do
      let p ← op p16 p32
      let t ← copy_in_paramsE op t16 t32
      pure (p :: t)

/-- `set_grad` with the per-pair framework calls (`new`, `copy_`)
abstracted as a fallible operation. -/
def set_gradE (op : Param → Param → Except String Param) :
    List Param → List Param → Except String (List Param)
  | _, [] => .ok []
  | [], p32s => .ok p32s
  | p16 :: t16, p32 :: t32 => do
      let p ← op p32 p16
      let t ← set_gradE op t16 t32
      pure (p :: t)

/-! ### The forward-function wrapper -/

/-- Modelled from the spec: `cast_tensor_type` (imported from
`mmdet.core.fp16.utils`, outside this module) "casts half-precision
tensor arguments to full precision … and casts the output back to half
precision": every tensor of dtype `src` is cast to dtype `dst` (values
preserved exactly up to the rounding `r16` when the destination is
half precision); tensors of any other dtype pass through unchanged. -/
def castTensorDType (r16 : Rat → Rat) (src dst : DType) (t : MTensor) : MTensor :=
  if t.dtype = src then
    ⟨dst, if dst = DType.fp16 then t.vals.map r16 else t.vals⟩
  else t

/-- `cast_tensor_type` applied across an argument tuple. -/
def cast_tensor_type (r16 : Rat → Rat) (args : List MTensor) (src dst : DType) :
    List MTensor :=
  args.map (castTensorDType r16 src dst)

/-- `patch_forward_module(old_forward, src_type, dst_type,
convert_output)` (hooks.py lines 116–141): the returned `new_forward`
casts the arguments from `src_type` to `dst_type`, calls the original
forward, and, when `convert_output` is set, casts the output back from
`dst_type` to `src_type`. -/
def patch_forward_module (r16 : Rat → Rat) (old_forward : List MTensor → List MTensor)
    (src_type dst_type : DType) (convert_output : Bool) :
    List MTensor → List MTensor :=
  fun args =>
    let output := old_forward (cast_tensor_type r16 args src_type dst_type)
    if convert_output then cast_tensor_type r16 output dst_type src_type
    else output

/-! ### Spec-side characterization of `patch_norm_fp32`

`patchSpec inNorm m` describes the result of the patch pointwise: a
module is cast to full precision iff it is a norm instance or lies
below one (`inNorm` records the latter), and exactly the norm
instances get the wrapped forward. -/

mutual

/-- Pointwise description of `patch_norm_fp32`: `inNorm` is true iff
some ancestor of the current module is a norm instance. -/
def patchSpec : Bool → NNModule → NNModule
  | inNorm, .node d cs =>
      let d1 := if d.isNorm || inNorm then dataFloat d else d
      let d2 := if d.isNorm then { d1 with fwdPatched := true } else d1
      .node d2 (patchSpecL (inNorm || d.isNorm) cs)
termination_by _ m => moduleCount m
decreasing_by
  simp [moduleCount]

def patchSpecL : Bool → List NNModule → List NNModule
  | _, [] => []
  | b, c :: cs => patchSpec b c :: patchSpecL b cs
termination_by _ ms => moduleCountL ms
decreasing_by
  · simp [moduleCountL]; omega
  · simp [moduleCountL]

end

theorem paramFloat_idem (p : Param) : paramFloat (paramFloat p) = paramFloat p := by
  cases p with
  | mk data grad rg => cases grad <;> simp [paramFloat]

theorem dataFloat_idem (d : MData) : dataFloat (dataFloat d) = dataFloat d := by
  cases d
  simp [dataFloat, List.map_map, Function.comp_def, paramFloat_idem]

mutual

theorem moduleFloat_idem (m : NNModule) :
    moduleFloat (moduleFloat m) = moduleFloat m := by
  match m with
  | .node d cs =>
      simp [moduleFloat, dataFloat_idem, moduleFloatL_idem cs]

theorem moduleFloatL_idem (ms : List NNModule) :
    moduleFloatL (moduleFloatL ms) = moduleFloatL ms := by
  match ms with
  | [] => rfl
  | m :: ms => simp [moduleFloatL, moduleFloat_idem m, moduleFloatL_idem ms]

end

theorem dataFloat_isNorm (d : MData) : (dataFloat d).isNorm = d.isNorm := rfl

mutual

theorem patch_float_eq_spec (m : NNModule) :
    patch_norm_fp32 (moduleFloat m) = patchSpec true m := by
  match m with
  | .node d cs =>
      cases hn : d.isNorm
      · simp only [moduleFloat, patch_norm_fp32, patchSpec]
        simp [hn, dataFloat, NNModule.data, NNModule.children,
          patchL_float_eq_spec cs]
      · simp only [moduleFloat, patch_norm_fp32, patchSpec]
        simp [hn, dataFloat_isNorm, setFwdPatched, NNModule.data, NNModule.children,
          dataFloat_idem, moduleFloatL_idem, patchL_float_eq_spec cs]
termination_by moduleCount m
decreasing_by all_goals simp [moduleCount, moduleCountL]

theorem patch_eq_spec_aux (m : NNModule) :
    patch_norm_fp32 m = patchSpec false m := by
  match m with
  | .node d cs =>
      cases hn : d.isNorm
      · simp only [patch_norm_fp32, patchSpec]
        simp [hn, NNModule.data, NNModule.children, patchL_eq_spec_aux cs]
      · simp only [patch_norm_fp32, patchSpec, moduleFloat]
        simp [hn, dataFloat_isNorm, setFwdPatched, NNModule.data, NNModule.children,
          patchL_float_eq_spec cs]
termination_by moduleCount m
decreasing_by all_goals simp [moduleCount, moduleCountL]

theorem patchL_float_eq_spec (ms : List NNModule) :
    patch_norm_fp32L (moduleFloatL ms) = patchSpecL true ms := by
  match ms with
  | [] => simp [moduleFloatL, patch_norm_fp32L, patchSpecL]
  | c :: cs =>
      simp only [moduleFloatL, patch_norm_fp32L, patchSpecL]
      simp [patch_float_eq_spec c, patchL_float_eq_spec cs]
termination_by moduleCountL ms
decreasing_by all_goals simp [moduleCount, moduleCountL] <;> omega

theorem patchL_eq_spec_aux (ms : List NNModule) :
    patch_norm_fp32L ms = patchSpecL false ms := by
  match ms with
  | [] => simp [patch_norm_fp32L, patchSpecL]
  | c :: cs =>
      simp only [patch_norm_fp32L, patchSpecL]
      simp [patch_eq_spec_aux c, patchL_eq_spec_aux cs]
termination_by moduleCountL ms
decreasing_by all_goals simp [moduleCount, moduleCountL] <;> omega

end

/-! ### Helper lemmas about the copy loops -/

theorem set_grad_getElem? (r16 : Rat → Rat) :
    ∀ (l16 l32 : List Param) (i : Nat) (p16 p32 : Param),
      l16[i]? = some p16 → l32[i]? = some p32 →
      (set_grad r16 l16 l32)[i]? = some (setGradPair r16 p32 p16)
  | [], _, i, _, _, h16, _ => by simp at h16
  | _ :: _, [], i, _, _, _, h32 => by simp at h32
  | a :: t16, b :: t32, 0, p16, p32, h16, h32 => by
      simp at h16 h32
      simp [set_grad, h16, h32]
  | a :: t16, b :: t32, i + 1, p16, p32, h16, h32 => by
      simp at h16 h32
      simpa [set_grad] using set_grad_getElem? r16 t16 t32 i p16 p32 h16 h32

theorem copy_in_params_getElem? (r16 : Rat → Rat) :
    ∀ (l16 l32 : List Param) (i : Nat) (p16 p32 : Param),
      l16[i]? = some p16 → l32[i]? = some p32 →
      (copy_in_params r16 l16 l32)[i]? = some (copyInPair r16 p16 p32)
  | [], _, i, _, _, h16, _ => by simp at h16
  | _ :: _, [], i, _, _, _, h32 => by simp at h32
  | a :: t16, b :: t32, 0, p16, p32, h16, h32 => by
      simp at h16 h32
      simp [copy_in_params, h16, h32]
  | a :: t16, b :: t32, i + 1, p16, p32, h16, h32 => by
      simp at h16 h32
      simpa [copy_in_params] using copy_in_params_getElem? r16 t16 t32 i p16 p32 h16 h32

theorem set_grad_length (r16 : Rat → Rat) :
    ∀ (l16 l32 : List Param), (set_grad r16 l16 l32).length = l32.length
  | _, [] => by simp [set_grad]
  | [], _ :: _ => by simp [set_grad]
  | _ :: t16, _ :: t32 => by
      simp [set_grad, set_grad_length r16 t16 t32]

theorem copy_in_params_length (r16 : Rat → Rat) :
    ∀ (l16 l32 : List Param), (copy_in_params r16 l16 l32).length = l16.length
  | [], _ => by simp [copy_in_params]
  | _ :: _, [] => by simp [copy_in_params]
  | _ :: t16, _ :: t32 => by
      simp [copy_in_params, copy_in_params_length r16 t16 t32]

theorem set_grad_eq_zip (r16 : Rat → Rat) :
    ∀ (l16 l32 : List Param),
      set_grad r16 l16 l32 =
        ((l32.zip l16).map fun q => setGradPair r16 q.1 q.2) ++ l32.drop l16.length
  | _, [] => by simp [set_grad]
  | [], _ :: _ => by simp [set_grad]
  | a :: t16, b :: t32 => by
      simp [set_grad, set_grad_eq_zip r16 t16 t32]

theorem copy_in_params_eq_zip (r16 : Rat → Rat) :
    ∀ (l16 l32 : List Param),
      copy_in_params r16 l16 l32 =
        ((l16.zip l32).map fun q => copyInPair r16 q.1 q.2) ++ l16.drop l32.length
  | [], _ => by simp [copy_in_params]
  | _ :: _, [] => by simp [copy_in_params]
  | a :: t16, b :: t32 => by
      simp [copy_in_params, copy_in_params_eq_zip r16 t16 t32]

theorem copyReqGrad_getElem? :
    ∀ (l1 l2 : List Param) (i : Nat) (p n : Param),
      l1[i]? = some p → l2[i]? = some n →
      (copyReqGrad l1 l2)[i]? = some { p with requires_grad := n.requires_grad }
  | [], _, i, _, _, h1, _ => by simp at h1
  | _ :: _, [], i, _, _, _, h2 => by simp at h2
  | a :: t1, b :: t2, 0, p, n, h1, h2 => by
      simp at h1 h2
      simp [copyReqGrad, h1, h2]
  | a :: t1, b :: t2, i + 1, p, n, h1, h2 => by
      simp at h1 h2
      simpa [copyReqGrad] using copyReqGrad_getElem? t1 t2 i p n h1 h2

theorem copyReqGrad_length :
    ∀ (l1 l2 : List Param), (copyReqGrad l1 l2).length = l1.length
  | [], _ => by simp [copyReqGrad]
  | _ :: _, [] => by simp [copyReqGrad]
  | _ :: t1, _ :: t2 => by simp [copyReqGrad, copyReqGrad_length t1 t2]

theorem backwardScaled_getElem? (c : Rat) :
    ∀ (gs : List (Option MTensor)) (ps : List Param) (i : Nat)
      (g? : Option MTensor) (p : Param),
      gs[i]? = some g? → ps[i]? = some p →
      (backwardScaled c gs ps)[i]? =
        some (match g? with | none => p | some g => accumGrad c p g)
  | [], _, i, _, _, hg, _ => by simp at hg
  | _ :: _, [], i, _, _, _, hp => by simp at hp
  | g0 :: gs, p0 :: ps, 0, g?, p, hg, hp => by
      simp at hg hp
      subst hg
      subst hp
      cases g0 <;> simp [backwardScaled]
  | g0 :: gs, p0 :: ps, i + 1, g?, p, hg, hp => by
      simp at hg hp
      cases g0 <;>
        simpa [backwardScaled] using backwardScaled_getElem? c gs ps i g? p hg hp

theorem zeroGrads_getElem? (ps : List Param) (i : Nat) :
    (zeroGrads ps)[i]? = ps[i]?.map zeroGradParam := by
  simp [zeroGrads]

theorem unscaleGrads_getElem? (s : Rat) (ps : List Param) (i : Nat) :
    (unscaleGrads s ps)[i]? = ps[i]?.map (unscaleParam s) := by
  simp [unscaleGrads]

theorem zipWith_zero_scale (c : Rat) :
    ∀ (xs : List Rat),
      List.zipWith (fun b x => b + c * x) (List.replicate xs.length 0) xs =
        xs.map (fun x => c * x)
  | [] => rfl
  | x :: xs => by
      simp [List.replicate_succ, zipWith_zero_scale c xs]

theorem set_gradE_ok (op : Param → Param → Except String Param) :
    ∀ (l16 l32 : List Param),
      (∀ (i : Nat) (p q : Param), l16[i]? = some p → l32[i]? = some q → ∃ r, op q p = Except.ok r) →
      ∃ res, set_gradE op l16 l32 = Except.ok res
  | [], [], _ => ⟨[], rfl⟩
  | _ :: _, [], _ => ⟨[], rfl⟩
  | [], b :: t32, _ => ⟨b :: t32, rfl⟩
  | a :: t16, b :: t32, h => by
      obtain ⟨r, hr⟩ := h 0 a b (by simp) (by simp)
      obtain ⟨res, hres⟩ := set_gradE_ok op t16 t32
        (fun i p q hp hq => h (i + 1) p q (by simpa using hp) (by simpa using hq))
      exact ⟨r :: res, by simp [set_gradE, hr, hres, Bind.bind, Except.bind, Pure.pure, Except.pure]⟩

theorem copy_in_paramsE_ok (op : Param → Param → Except String Param) :
    ∀ (l16 l32 : List Param),
      (∀ (i : Nat) (p q : Param), l16[i]? = some p → l32[i]? = some q → ∃ r, op p q = Except.ok r) →
      ∃ res, copy_in_paramsE op l16 l32 = Except.ok res
  | [], [], _ => ⟨[], rfl⟩
  | [], _ :: _, _ => ⟨[], rfl⟩
  | a :: t16, [], _ => ⟨a :: t16, rfl⟩
  | a :: t16, b :: t32, h => by
      obtain ⟨r, hr⟩ := h 0 a b (by simp) (by simp)
      obtain ⟨res, hres⟩ := copy_in_paramsE_ok op t16 t32
        (fun i p q hp hq => h (i + 1) p q (by simpa using hp) (by simpa using hq))
      exact ⟨r :: res, by simp [copy_in_paramsE, hr, hres, Bind.bind, Except.bind, Pure.pure, Except.pure]⟩

theorem set_gradE_error (op : Param → Param → Except String Param)
    (a b : Param) (t16 t32 : List Param) (e : String) :
    ∀ (pre16 pre32 : List Param), pre16.length = pre32.length →
      (∀ (j : Nat) (p q : Param), pre16[j]? = some p → pre32[j]? = some q → ∃ r, op q p = Except.ok r) →
      op b a = Except.error e →
      set_gradE op (pre16 ++ a :: t16) (pre32 ++ b :: t32) = Except.error e
  | [], [], _, _, hfail => by simp [set_gradE, hfail, Bind.bind, Except.bind]
  | [], _ :: _, h, _, _ => by simp at h
  | _ :: _, [], h, _, _ => by simp at h
  | p :: pre16, q :: pre32, hlen, hok, hfail => by
      obtain ⟨r, hr⟩ := hok 0 p q (by simp) (by simp)
      have ih := set_gradE_error op a b t16 t32 e pre16 pre32 (by simpa using hlen)
        (fun j u v hu hv => hok (j + 1) u v (by simpa using hu) (by simpa using hv))
        hfail
      simp [set_gradE, hr, ih, Bind.bind, Except.bind]

theorem copy_in_paramsE_error (op : Param → Param → Except String Param)
    (a b : Param) (t16 t32 : List Param) (e : String) :
    ∀ (pre16 pre32 : List Param), pre16.length = pre32.length →
      (∀ (j : Nat) (p q : Param), pre16[j]? = some p → pre32[j]? = some q → ∃ r, op p q = Except.ok r) →
      op a b = Except.error e →
      copy_in_paramsE op (pre16 ++ a :: t16) (pre32 ++ b :: t32) = Except.error e
  | [], [], _, _, hfail => by simp [copy_in_paramsE, hfail, Bind.bind, Except.bind]
  | [], _ :: _, h, _, _ => by simp at h
  | _ :: _, [], h, _, _ => by simp at h
  | p :: pre16, q :: pre32, hlen, hok, hfail => by
      obtain ⟨r, hr⟩ := hok 0 p q (by simp) (by simp)
      have ih := copy_in_paramsE_error op a b t16 t32 e pre16 pre32 (by simpa using hlen)
        (fun j u v hu hv => hok (j + 1) u v (by simpa using hu) (by simpa using hv))
        hfail
      simp [copy_in_paramsE, hr, ih, Bind.bind, Except.bind]

theorem cloneData_eq (t : MTensor) : cloneData t = t := rfl

theorem before_run_params_getElem? (r16 : Rat → Rat) (st : Store) (cfgRef : Nat)
    (model : NNModule) (i : Nat) (p : Param)
    (hp : (modelParameters model)[i]? = some p) :
    (before_run r16 st cfgRef model).2.1.params[i]? =
      some ⟨p.data, none, p.requires_grad⟩ := by
  have h1 : ((modelParameters model).map cloneParam)[i]? = some (cloneParam p) := by
    simp [hp]
  have h2 := copyReqGrad_getElem? ((modelParameters model).map cloneParam)
    (modelParameters model) i (cloneParam p) p h1 hp
  simpa [before_run, cloneParam, cloneData_eq] using h2

theorem before_run_params_length (r16 : Rat → Rat) (st : Store) (cfgRef : Nat)
    (model : NNModule) :
    (before_run r16 st cfgRef model).2.1.params.length =
      (modelParameters model).length := by
  simp [before_run, copyReqGrad_length]

theorem before_run_params_data (r16 : Rat → Rat) (st : Store) (cfgRef : Nat)
    (model : NNModule) (i : Nat) :
    ((before_run r16 st cfgRef model).2.1.params[i]?).map Param.data =
      ((modelParameters model)[i]?).map Param.data := by
  cases hp : (modelParameters model)[i]? with
  | some p => simp [before_run_params_getElem? r16 st cfgRef model i p hp]
  | none =>
      have hlen : (modelParameters model).length ≤ i := by
        simpa using hp
      have hlen2 : (before_run r16 st cfgRef model).2.1.params.length ≤ i := by
        rw [before_run_params_length]; exact hlen
      simp [List.getElem?_eq_none hlen2]

/-! ### Witness fixtures: small concrete inputs used to instantiate the
claim theorems. -/

def wG : MTensor := ⟨DType.fp16, [1, 2]⟩

def wP16 : Param := ⟨⟨DType.fp16, [3, 4]⟩, some ⟨DType.fp16, [5, 6]⟩, true⟩

def wP32 : Param := ⟨⟨DType.fp32, [3, 4]⟩, none, true⟩

def wOp : Param → Param → Except String Param :=
  fun p q =>
    if p.data.vals.length = q.data.vals.length then Except.ok p
    else Except.error "size mismatch"

def wModel : NNModule :=
  .node ⟨false, [wP32], false, true, false⟩ [.node ⟨true, [wP32], false, false, false⟩ []]

def wSt : Store := [[("type", CfgVal.str "SGD"), ("lr", CfgVal.num (1 / 100))]]

def cfgW : HookCfg := ⟨none, true, -1, 2, false⟩

def sW : TrainState := ⟨[wP16], [wP32], 5, [some wG]⟩

/-! ### The claims -/

/-- C9: for every aligned parameter pair, `set_grad` leaves the fp32
gradient untouched when the fp16 gradient is absent; when the fp16
gradient is present and the fp32 gradient is absent it first allocates
a gradient buffer of exactly the fp32 parameter's size and then copies
the fp16 gradient values into it. -/
theorem C9_setGradPair_cases (r16 : Rat → Rat) (p32 p16 : Param) (g : MTensor) :
    (p16.grad = none → setGradPair r16 p32 p16 = p32)
    ∧ (p16.grad = some g → p32.grad = none →
        setGradPair r16 p32 p16 =
            { p32 with grad := some (tensorCopy r16 (tensorNew p32.data) g) }
        ∧ (tensorNew p32.data).vals.length = p32.data.vals.length
        ∧ (p32.data.dtype = DType.fp32 →
            tensorCopy r16 (tensorNew p32.data) g = ⟨DType.fp32, g.vals⟩)) := by
  refine ⟨fun hnone => by simp [setGradPair, hnone], fun hg h32 => ⟨?_, ?_, ?_⟩⟩
  · simp [setGradPair, hg, h32]
  · simp [tensorNew]
  · intro hdt
    simp [tensorCopy, tensorNew, hdt]

theorem C9_witness :
    setGradPair (fun v => v) wP32 wP16 =
        { wP32 with grad := some (tensorCopy (fun v => v) (tensorNew wP32.data) ⟨DType.fp16, [5, 6]⟩) }
    ∧ setGradPair (fun v => v) wP16 ⟨wP16.data, none, true⟩ = wP16 := by
  refine ⟨((C9_setGradPair_cases (fun v => v) wP32 wP16 ⟨DType.fp16, [5, 6]⟩).2 rfl rfl).1, ?_⟩
  exact (C9_setGradPair_cases (fun v => v) wP16 ⟨wP16.data, none, true⟩ wG).1 rfl

/-- C8: `set_grad` and `copy_in_params` process exactly the aligned
prefix of the two lists (pairing index `i` with index `i`), leave the
surplus tail of the longer list untouched, and a length mismatch alone
never produces an error: when the per-pair framework operation
succeeds on every pair, both fallible loops return `ok` on lists of
any two lengths. -/
theorem C8_zip_truncation (r16 : Rat → Rat) (op : Param → Param → Except String Param)
    (l16 l32 : List Param)
    (hop : ∀ p q : Param, ∃ r, op p q = Except.ok r) :
    set_grad r16 l16 l32 =
        ((l32.zip l16).map fun q => setGradPair r16 q.1 q.2) ++ l32.drop l16.length
    ∧ copy_in_params r16 l16 l32 =
        ((l16.zip l32).map fun q => copyInPair r16 q.1 q.2) ++ l16.drop l32.length
    ∧ (∃ res, set_gradE op l16 l32 = Except.ok res)
    ∧ (∃ res, copy_in_paramsE op l16 l32 = Except.ok res) :=
  ⟨set_grad_eq_zip r16 l16 l32, copy_in_params_eq_zip r16 l16 l32,
   set_gradE_ok op l16 l32 (fun _ p q _ _ => hop q p),
   copy_in_paramsE_ok op l16 l32 (fun _ p q _ _ => hop p q)⟩

theorem C8_witness :
    set_grad (fun v => v) [wP16] [wP32, wP32, wP32] =
        (([wP32, wP32, wP32].zip [wP16]).map
          fun q => setGradPair (fun v => v) q.1 q.2) ++ [wP32, wP32, wP32].drop 1
    ∧ copy_in_params (fun v => v) [wP16] [wP32, wP32, wP32] =
        (([wP16].zip [wP32, wP32, wP32]).map
          fun q => copyInPair (fun v => v) q.1 q.2) ++ [wP16].drop 3
    ∧ (∃ res, set_gradE (fun p _ => Except.ok p) [wP16] [wP32, wP32, wP32] = Except.ok res)
    ∧ (∃ res, copy_in_paramsE (fun p _ => Except.ok p) [wP16] [wP32, wP32, wP32] =
        Except.ok res) :=
  C8_zip_truncation (fun v => v) (fun p _ => Except.ok p) [wP16] [wP32, wP32, wP32]
    (fun p _ => ⟨p, rfl⟩)

/-- C7: neither copy loop contains a handler: when the per-pair
framework operation succeeds on every aligned pair before some pair
and raises error `e` at that pair, both `set_grad` and
`copy_in_params` return exactly `e` to the caller. -/
theorem C7_error_propagation (op : Param → Param → Except String Param)
    (pre16 pre32 t16 t32 : List Param) (a b : Param) (e : String)
    (hlen : pre16.length = pre32.length)
    (hok1 : ∀ (j : Nat) (p q : Param),
      pre16[j]? = some p → pre32[j]? = some q → ∃ r, op q p = Except.ok r)
    (hok2 : ∀ (j : Nat) (p q : Param),
      pre16[j]? = some p → pre32[j]? = some q → ∃ r, op p q = Except.ok r)
    (hfail1 : op b a = Except.error e)
    (hfail2 : op a b = Except.error e) :
    set_gradE op (pre16 ++ a :: t16) (pre32 ++ b :: t32) = Except.error e
    ∧ copy_in_paramsE op (pre16 ++ a :: t16) (pre32 ++ b :: t32) = Except.error e :=
  ⟨set_gradE_error op a b t16 t32 e pre16 pre32 hlen hok1 hfail1,
   copy_in_paramsE_error op a b t16 t32 e pre16 pre32 hlen hok2 hfail2⟩

theorem C7_witness :
    set_gradE wOp [⟨⟨DType.fp16, [7]⟩, none, true⟩] [wP32] = Except.error "size mismatch"
    ∧ copy_in_paramsE wOp [⟨⟨DType.fp16, [7]⟩, none, true⟩] [wP32] =
        Except.error "size mismatch" := by
  have h := C7_error_propagation wOp [] [] [] [] ⟨⟨DType.fp16, [7]⟩, none, true⟩ wP32
    "size mismatch" rfl
    (fun j p q hp _ => by simp at hp)
    (fun j p q hp _ => by simp at hp)
    (by simp [wOp, wP32]) (by simp [wOp, wP32])
  simpa using h

/-- C10: each full-precision master clone built by
`Fp16PrepareHook.before_run` carries the same `requires_grad` flag as
the model parameter it was cloned from. -/
theorem C10_requires_grad (r16 : Rat → Rat) (st : Store) (cfgRef : Nat)
    (model : NNModule) (i : Nat) (p : Param)
    (hp : (modelParameters model)[i]? = some p) :
    ((before_run r16 st cfgRef model).2.1.params[i]?).map Param.requires_grad =
      some p.requires_grad := by
  simp [before_run_params_getElem? r16 st cfgRef model i p hp]

theorem C10_witness :
    ((before_run (fun v => v) wSt 0 wModel).2.1.params[0]?).map Param.requires_grad =
      some true := by
  have h := C10_requires_grad (fun v => v) wSt 0 wModel 0 wP32 (by
    simp [wModel, modelParameters, modelParametersL])
  simpa [wP32] using h

/-- C2: `Fp16PrepareHook.before_run` clones each parameter's data
before the model is converted (the clone holds exactly the original,
full-precision data), then converts the model via `wrap_fp16_model`,
and replaces the optimizer with one whose class is the `"type"` entry
of the config and whose parameters are the clones, one per model
parameter. -/
theorem C2_before_run_clones (r16 : Rat → Rat) (st : Store) (cfgRef : Nat)
    (model : NNModule) (i : Nat) (p : Param)
    (hp : (modelParameters model)[i]? = some p) :
    ((before_run r16 st cfgRef model).2.1.params[i]?).map Param.data = some p.data
    ∧ (before_run r16 st cfgRef model).2.2 = wrap_fp16_model r16 model
    ∧ (before_run r16 st cfgRef model).2.1.otype =
        dictLookup (storeGet st cfgRef) "type"
    ∧ (before_run r16 st cfgRef model).2.1.params.length =
        (modelParameters model).length := by
  refine ⟨by simp [before_run_params_getElem? r16 st cfgRef model i p hp], ?_, ?_,
    before_run_params_length r16 st cfgRef model⟩
  · simp [before_run]
  · simp [before_run, dictPopOp, dictCopyOp, storeGet]

theorem C2_witness :
    ((before_run (fun v => v) wSt 0 wModel).2.1.params[0]?).map Param.data =
        some ⟨DType.fp32, [3, 4]⟩
    ∧ (before_run (fun v => v) wSt 0 wModel).2.2 = wrap_fp16_model (fun v => v) wModel
    ∧ (before_run (fun v => v) wSt 0 wModel).2.1.otype =
        dictLookup (storeGet wSt 0) "type"
    ∧ (before_run (fun v => v) wSt 0 wModel).2.1.params.length =
        (modelParameters wModel).length := by
  have h := C2_before_run_clones (fun v => v) wSt 0 wModel 0 wP32 (by
    simp [wModel, modelParameters, modelParametersL])
  simpa [wP32] using h

/-- C5: the master list and the model parameter list stay
index-aligned: `before_run` builds the clone list in model parameter
order, `set_grad` and `copy_in_params` pair index `i` with index `i`,
and none of the three operations changes the length of the list it
returns. -/
theorem C5_index_alignment (r16 : Rat → Rat) (st : Store) (cfgRef : Nat)
    (model : NNModule) (l16 l32 : List Param) (i j : Nat) (a b : Param)
    (h16 : l16[j]? = some a) (h32 : l32[j]? = some b) :
    ((before_run r16 st cfgRef model).2.1.params[i]?).map Param.data =
        ((modelParameters model)[i]?).map Param.data
    ∧ (set_grad r16 l16 l32)[j]? = some (setGradPair r16 b a)
    ∧ (copy_in_params r16 l16 l32)[j]? = some (copyInPair r16 a b)
    ∧ (set_grad r16 l16 l32).length = l32.length
    ∧ (copy_in_params r16 l16 l32).length = l16.length
    ∧ (before_run r16 st cfgRef model).2.1.params.length =
        (modelParameters model).length :=
  ⟨before_run_params_data r16 st cfgRef model i,
   set_grad_getElem? r16 l16 l32 j a b h16 h32,
   copy_in_params_getElem? r16 l16 l32 j a b h16 h32,
   set_grad_length r16 l16 l32,
   copy_in_params_length r16 l16 l32,
   before_run_params_length r16 st cfgRef model⟩

theorem C5_witness :
    ((before_run (fun v => v) wSt 0 wModel).2.1.params[0]?).map Param.data =
        ((modelParameters wModel)[0]?).map Param.data
    ∧ (set_grad (fun v => v) [wP16] [wP32])[0]? =
        some (setGradPair (fun v => v) wP32 wP16)
    ∧ (copy_in_params (fun v => v) [wP16] [wP32])[0]? =
        some (copyInPair (fun v => v) wP16 wP32)
    ∧ (set_grad (fun v => v) [wP16] [wP32]).length = 1
    ∧ (copy_in_params (fun v => v) [wP16] [wP32]).length = 1
    ∧ (before_run (fun v => v) wSt 0 wModel).2.1.params.length =
        (modelParameters wModel).length :=
  C5_index_alignment (fun v => v) wSt 0 wModel [wP16] [wP32] 0 0 wP16 wP32 rfl rfl

/-- C6: `before_run` leaves the stored optimizer config unchanged:
`"type"` is popped only from a shallow copy, the original dict still
holds all its entries afterwards, and the copy's remaining entries are
exactly what is handed to the optimizer constructor. -/
theorem C6_config_unchanged (r16 : Rat → Rat) (st : Store) (cfgRef : Nat)
    (model : NNModule) (href : cfgRef < st.length) :
    storeGet (before_run r16 st cfgRef model).1 cfgRef = storeGet st cfgRef
    ∧ (before_run r16 st cfgRef model).2.1.kwargs =
        dictRemove (storeGet st cfgRef) "type"
    ∧ (before_run r16 st cfgRef model).2.1.otype =
        dictLookup (storeGet st cfgRef) "type" := by
  refine ⟨?_, ?_, ?_⟩
  · have hne : st.length ≠ cfgRef := Nat.ne_of_gt href
    simp [before_run, dictPopOp, dictCopyOp, storeGet, List.getElem?_set_ne hne,
      List.getElem?_append_left href]
  · simp [before_run, dictPopOp, dictCopyOp, storeGet]
  · simp [before_run, dictPopOp, dictCopyOp, storeGet]

theorem C6_witness :
    storeGet (before_run (fun v => v) wSt 0 wModel).1 0 = storeGet wSt 0
    ∧ (before_run (fun v => v) wSt 0 wModel).2.1.kwargs =
        dictRemove (storeGet wSt 0) "type"
    ∧ (before_run (fun v => v) wSt 0 wModel).2.1.otype =
        dictLookup (storeGet wSt 0) "type" :=
  C6_config_unchanged (fun v => v) wSt 0 wModel (by simp [wSt])

/-- C1: `after_train_iter` performs exactly these steps in this
order — zero model grads, zero optimizer grads, scale the loss,
backpropagate, copy gradients to the master copy, all-reduce exactly
once iff `distributed`, divide every present fp32 gradient by
`loss_scale`, clip iff `grad_clip` is set, step the optimizer, copy
the updated master values back — and the data handed to each step is
the result of the previous ones in that order. -/
theorem C1_after_train_iter_steps (cfg : HookCfg)
    (arFn clipFn stepFn : List Param → List Param) (r16 : Rat → Rat) (s : TrainState) :
    (after_train_iter cfg arFn clipFn stepFn r16 s).2 =
      [Ev.zeroModelGrad, Ev.zeroOptGrad, Ev.scaleLoss, Ev.backward, Ev.setGrad]
        ++ (if cfg.distributed then [Ev.allreduce] else []) ++ [Ev.unscale]
        ++ (if cfg.grad_clip.isSome then [Ev.clipGrads] else [])
        ++ [Ev.optStep, Ev.copyIn]
    ∧ (((after_train_iter cfg arFn clipFn stepFn r16 s).2.count Ev.allreduce = 1) ↔
        cfg.distributed = true)
    ∧ ((Ev.clipGrads ∈ (after_train_iter cfg arFn clipFn stepFn r16 s).2) ↔
        cfg.grad_clip.isSome = true)
    ∧ (after_train_iter cfg arFn clipFn stepFn r16 s).1.fp32_weight =
        stepFn ((if cfg.grad_clip.isSome then clipFn else id)
          (unscaleGrads cfg.loss_scale
            ((if cfg.distributed then arFn else id)
              (set_grad r16
                (backwardScaled cfg.loss_scale s.gradOfLoss (zeroGrads s.modelParams))
                (zeroGrads s.fp32_weight)))))
    ∧ (after_train_iter cfg arFn clipFn stepFn r16 s).1.modelParams =
        copy_in_params r16
          (backwardScaled cfg.loss_scale s.gradOfLoss (zeroGrads s.modelParams))
          ((after_train_iter cfg arFn clipFn stepFn r16 s).1.fp32_weight) := by
  cases hd : cfg.distributed <;> cases hc : cfg.grad_clip <;>
    simp [after_train_iter, hd, hc, List.count_cons, List.count_nil]

/-- C3: with a nonzero loss scale (and no all-reduce or clipping
intervening), the gradient handed to the optimizer step is the
backpropagated gradient of the scaled loss divided by `loss_scale`,
which in exact rational arithmetic is precisely the gradient of the
unscaled loss: scaling then unscaling is the identity on gradients. -/
theorem C3_loss_scale_roundtrip (cfg : HookCfg) (arFn clipFn : List Param → List Param)
    (r16 : Rat → Rat) (s : TrainState) (i : Nat) (g : MTensor) (p16 p32 : Param)
    (hscale : cfg.loss_scale ≠ 0)
    (hdist : cfg.distributed = false)
    (hclip : cfg.grad_clip = none)
    (hmp : s.modelParams[i]? = some p16)
    (hfw : s.fp32_weight[i]? = some p32)
    (hg : s.gradOfLoss[i]? = some (some g))
    (hsh : ∀ h, p16.grad = some h → h.vals.length = g.vals.length)
    (hdt : p32.data.dtype = DType.fp32)
    (hgdt : ∀ gr, p32.grad = some gr → gr.dtype = DType.fp32) :
    ((after_train_iter cfg arFn clipFn id r16 s).1.fp32_weight[i]?).map
        (fun p => p.grad.map MTensor.vals) = some (some g.vals) := by
  have h1 : (zeroGrads s.modelParams)[i]? = some (zeroGradParam p16) := by
    simp [zeroGrads_getElem?, hmp]
  have h2 := backwardScaled_getElem? cfg.loss_scale s.gradOfLoss
    (zeroGrads s.modelParams) i (some g) (zeroGradParam p16) hg h1
  have hacc : (accumGrad cfg.loss_scale (zeroGradParam p16) g).grad =
      some ⟨p16.data.dtype, g.vals.map (fun x => cfg.loss_scale * x)⟩ := by
    cases hpg : p16.grad with
    | none =>
        simp [accumGrad, zeroGradParam, hpg]
        simpa using zipWith_zero_scale cfg.loss_scale g.vals
    | some hgr =>
        have hlen := hsh hgr hpg
        simp [accumGrad, zeroGradParam, hpg, hlen]
        simpa using zipWith_zero_scale cfg.loss_scale g.vals
  have h3 : (zeroGrads s.fp32_weight)[i]? = some (zeroGradParam p32) := by
    simp [zeroGrads_getElem?, hfw]
  have h4 := set_grad_getElem? r16
    (backwardScaled cfg.loss_scale s.gradOfLoss (zeroGrads s.modelParams))
    (zeroGrads s.fp32_weight) i
    (accumGrad cfg.loss_scale (zeroGradParam p16) g) (zeroGradParam p32) h2 h3
  have h5 : (setGradPair r16 (zeroGradParam p32)
        (accumGrad cfg.loss_scale (zeroGradParam p16) g)).grad =
      some ⟨DType.fp32, g.vals.map (fun x => cfg.loss_scale * x)⟩ := by
    cases h32 : p32.grad with
    | none =>
        simp only [setGradPair, hacc]
        simp [zeroGradParam, h32, tensorNew, tensorCopy, hdt]
    | some gr =>
        have hgrdt := hgdt gr h32
        simp only [setGradPair, hacc]
        simp [zeroGradParam, h32, tensorCopy, hgrdt]
  have hid : (fun v => v / cfg.loss_scale) ∘ (fun x => cfg.loss_scale * x) = id := by
    funext x
    simp [mul_div_cancel_left₀ x hscale]
  simp only [after_train_iter, hdist, hclip, Option.isSome_none, Bool.false_eq_true,
    if_false, id]
  rw [unscaleGrads_getElem?, h4]
  simp [unscaleParam, h5, List.map_map, hid]

theorem C3_witness :
    cfgW.loss_scale ≠ 0
    ∧ ((after_train_iter cfgW id id id (fun v => v) sW).1.fp32_weight[0]?).map
        (fun p => p.grad.map MTensor.vals) = some (some [1, 2]) := by
  refine ⟨by norm_num [cfgW], ?_⟩
  have h := C3_loss_scale_roundtrip cfgW id id (fun v => v) sW 0 wG wP16 wP32
    (by norm_num [cfgW]) rfl rfl rfl rfl rfl
    (by intro h hh; simp [wP16] at hh; subst hh; rfl)
    rfl
    (by intro gr hgr; simp [wP32] at hgr)
  simpa [wG] using h

def exChildData : MData := ⟨false, [⟨⟨DType.fp16, [1]⟩, none, true⟩], false, false, false⟩

def exNormData : MData := ⟨true, [], false, false, false⟩

/-- A norm module with one plain (non-norm) child, everything in half
precision, as it stands right after `model.half()`. -/
def exTree : NNModule := .node exNormData [.node exChildData []]

/-- C4 counterexample: on a norm module with a non-norm child,
`patch_norm_fp32` modifies the child as well (torch `float()` recurses
into the whole subtree), so it is not the case that all non-norm
modules are left unmodified. -/
theorem C4_counterexample :
    exChildData.isNorm = false
    ∧ (patch_norm_fp32 exTree).children.map NNModule.data = [dataFloat exChildData]
    ∧ dataFloat exChildData ≠ exChildData := by
  refine ⟨rfl, ?_, by decide⟩
  simp only [exTree, patch_norm_fp32, patch_norm_fp32L, setFwdPatched, moduleFloat,
    moduleFloatL, exNormData, NNModule.data, NNModule.children]
  simp [patch_norm_fp32, patch_norm_fp32L, dataFloat, exChildData, NNModule.data,
    NNModule.children]

/-- C4 (amended): `patch_norm_fp32` visits every module and acts
pointwise: a module is cast to full precision iff it is a norm
instance or a descendant of one (torch `float()` recurses into the
whole subtree), exactly the norm instances get the wrapped forward,
and a module that is neither a norm instance nor below one is left
unmodified; the wrapper casts half-precision tensor arguments to full
precision, calls the original forward, and casts the output back to
half precision. -/
theorem C4_patch_norm_fp32_spec (m : NNModule) (r16 : Rat → Rat)
    (old_forward : List MTensor → List MTensor) (args : List MTensor) :
    patch_norm_fp32 m = patchSpec false m
    ∧ patch_forward_module r16 old_forward DType.fp16 DType.fp32 true args =
        cast_tensor_type r16
          (old_forward (cast_tensor_type r16 args DType.fp16 DType.fp32))
          DType.fp32 DType.fp16
    ∧ (∀ t : MTensor, t.dtype = DType.fp16 →
        castTensorDType r16 DType.fp16 DType.fp32 t = ⟨DType.fp32, t.vals⟩)
    ∧ (∀ t : MTensor, t.dtype ≠ DType.fp16 →
        castTensorDType r16 DType.fp16 DType.fp32 t = t) := by
  refine ⟨patch_eq_spec_aux m, rfl, ?_, ?_⟩
  · intro t ht
    simp [castTensorDType, ht]
  · intro t ht
    simp [castTensorDType, ht]

theorem C4_witness :
    patch_norm_fp32 wModel = patchSpec false wModel
    ∧ castTensorDType (fun v => v) DType.fp16 DType.fp32 ⟨DType.fp16, [1]⟩ =
        ⟨DType.fp32, [1]⟩
    ∧ castTensorDType (fun v => v) DType.fp16 DType.fp32 ⟨DType.fp32, [1]⟩ =
        ⟨DType.fp32, [1]⟩ :=
  ⟨(C4_patch_norm_fp32_spec wModel (fun v => v) id []).1,
   (C4_patch_norm_fp32_spec wModel (fun v => v) id []).2.2.1 ⟨DType.fp16, [1]⟩ rfl,
   (C4_patch_norm_fp32_spec wModel (fun v => v) id []).2.2.2 ⟨DType.fp32, [1]⟩
     (by decide)⟩

end Fp16
